import Mathlib

/-!
# Verification of `ChangeNotifier` (piper, src/change_notifier.rs)

A shallow embedding of the `ChangeNotifier<T>` type and its operations.
The notifier's own code is translated from `src/change_notifier.rs`.
The event primitive it uses (`crate::event::{Event, EventListener}`) is not
part of this source tree, so it is modelled from the specification's
description of the Event contract (an empty-constructed broadcast primitive,
`listen` registering single-shot listeners, `notify_all` marking every
currently waiting listener as notified, awaiting completing exactly when a
listener is notified and consuming it).

`Arc<Event>` sharing is made explicit by a heap of events (`World`); an
`Arc<Event>` is an index into that heap, so two notifiers share an Event
exactly when they hold the same index.
-/

/-- Modelled from the spec: the state of an `EventListener` of the missing
`crate::event` module. The spec's Created/Registered states are collapsed
into `waiting` (both are "not yet notified"); `notified` and `consumed`
are as in the spec's listener state machine. -/
inductive ListenerState where
  | waiting
  | notified
  | consumed
deriving DecidableEq

/-- Modelled from the spec: an `Event` is a broadcast wakeup primitive with a
waiter set. Every listener ever issued by this Event is recorded in creation
order; a listener handle is its index into this list. Listeners in state
`waiting` form the waiter set. -/
structure Event where
  listeners : List ListenerState
deriving DecidableEq

/-- Modelled from the spec: `Event::new()` constructs an empty Event with no
waiters. -/
def Event.new : Event := ⟨[]⟩

/-- Modelled from the spec: `Event::listen()` produces a fresh single-shot
listener bound to this Event and returns its handle. -/
def Event.listen (e : Event) : Event × Nat :=
  (⟨e.listeners ++ [ListenerState.waiting]⟩, e.listeners.length)

/-- Modelled from the spec: `Event::notify_all()` marks every currently
waiting listener as notified (and wakes it); listeners already notified or
consumed are unaffected. -/
def Event.notifyAll (e : Event) : Event :=
  ⟨e.listeners.map fun s =>
    if s = ListenerState.waiting then ListenerState.notified else s⟩

/-- Modelled from the spec: one poll of an awaited listener. The await
completes (returning the updated Event) exactly when the listener has been
notified, transitioning it to consumed; otherwise the await stays pending
(`none`). -/
def Event.awaitPoll (e : Event) (i : Nat) : Option Event :=
  match e.listeners[i]? with
  | some ListenerState.notified => some ⟨e.listeners.set i ListenerState.consumed⟩
  | _ => none

/-- The heap of reference-counted Events. An `Arc<Event>` is an index into
this heap; `Arc::clone` copies the index, so sharing is index equality. -/
structure World where
  events : List Event
deriving DecidableEq

/-- Dereference an `Arc<Event>`: look up the event at index `i`. -/
def World.getEvent (w : World) (i : Nat) : Event :=
  w.events.getD i Event.new

/-- Fire `notify_all` on the event at heap index `i`. -/
def World.notifyAt (w : World) (i : Nat) : World :=
  ⟨w.events.set i (w.getEvent i).notifyAll⟩

/-- `ChangeNotifier<T>` from src/change_notifier.rs: a payload `inner: T`
owned exclusively by the notifier, and `event: Arc<Event>` represented as a
heap index. -/
structure ChangeNotifier (T : Type) where
  inner : T
  event : Nat

/-- `ChangeNotifier::new(data)`: wrap the given data and allocate a fresh
`Arc::new(Event::new())`. Allocation appends to the heap, so the fresh index
is the old heap length. -/
def ChangeNotifier.new {T : Type} (w : World) (data : T) :
    World × ChangeNotifier T :=
  (⟨w.events ++ [Event.new]⟩, { inner := data, event := w.events.length })

/-- `impl<T: Clone> Clone for ChangeNotifier<T>`: the payload is cloned with
`T`'s clone operation (`cloneT`), the event field by `Arc::clone`, which
copies the index (same shared Event). -/
def ChangeNotifier.clone {T : Type} (cloneT : T → T) (n : ChangeNotifier T) :
    ChangeNotifier T :=
  { inner := cloneT n.inner, event := n.event }

/-- `ChangeNotifier::update(apply_update)`: run the closure on the payload
capturing its return value, fire `notify_all` on the embedded event, return
the closure's return value. -/
def ChangeNotifier.update {T R : Type} (w : World) (n : ChangeNotifier T)
    (applyUpdate : T → T × R) : World × ChangeNotifier T × R :=
  let tr := applyUpdate n.inner
  (w.notifyAt n.event, { n with inner := tr.1 }, tr.2)

/-- The primitive effects performed by one `update` call, in program order. -/
inductive UpdateStep (T R : Type) where
  | applyClosure (before after : T) (ret : R)
  | notifyAll (payload : T)
  | returned (ret : R)
deriving DecidableEq

/-- The effect trace of `ChangeNotifier::update`, read off the body of the
source function: first the closure runs on the payload, then `notify_all`
fires (with the payload in its post-closure state), then the closure's
return value is returned. -/
def ChangeNotifier.updateTrace {T R : Type} (n : ChangeNotifier T)
    (applyUpdate : T → T × R) : List (UpdateStep T R) :=
  let tr := applyUpdate n.inner
  [UpdateStep.applyClosure n.inner tr.1 tr.2,
   UpdateStep.notifyAll tr.1,
   UpdateStep.returned tr.2]

/-- Recognize the `notify_all` step of an update trace. -/
def UpdateStep.isNotify {T R : Type} : UpdateStep T R → Bool
  | UpdateStep.notifyAll _ => true
  | _ => false

/-- `ChangeNotifier::update` with a closure that may abort (Rust panic)
partway through its mutation: `.error t` means the closure aborted leaving
the payload in intermediate state `t`. Under unwinding the statements after
the closure call (`notify_all` and the return) do not run, so the call fails
with the heap untouched and the payload as the closure left it. -/
def ChangeNotifier.updateCatch {T R : Type} (w : World) (n : ChangeNotifier T)
    (applyUpdate : T → Except T (T × R)) :
    Except (World × ChangeNotifier T) (World × ChangeNotifier T × R) :=
  match applyUpdate n.inner with
  | Except.error t => Except.error (w, { n with inner := t })
  | Except.ok tr => Except.ok (w.notifyAt n.event, { n with inner := tr.1 }, tr.2)

/-- `ChangeNotifier::listen`: delegate to the embedded Event's `listen`,
returning the fresh listener's handle. -/
def ChangeNotifier.listen {T : Type} (w : World) (n : ChangeNotifier T) :
    World × Nat :=
  let el := (w.getEvent n.event).listen
  (⟨w.events.set n.event el.1⟩, el.2)

/-- `impl Deref for ChangeNotifier`: `&self.inner`. -/
def ChangeNotifier.deref {T : Type} (n : ChangeNotifier T) : T := n.inner

/-- The read projection viewed as an operation on the whole state: it yields
the payload and leaves the world and the notifier exactly as they were. -/
def ChangeNotifier.readProj {T : Type} (w : World) (n : ChangeNotifier T) :
    T × World × ChangeNotifier T :=
  (ChangeNotifier.deref n, w, n)

/-- A finite sequence of `update` calls applied in order (closures returning
no extra value). -/
def ChangeNotifier.runUpdates {T : Type} (w : World) (n : ChangeNotifier T)
    (fs : List (T → T)) : World × ChangeNotifier T :=
  fs.foldl (fun wn f =>
    let r := ChangeNotifier.update wn.1 wn.2 (fun t => (f t, ()))
    (r.1, r.2.1)) (w, n)

/-- The public interface of a `ChangeNotifier` value: `update`, `listen`, the
`Deref` read projection, and `Clone`. The inner field is private and no
`DerefMut` exists, so these are the only operations. -/
inductive ApiCall (T : Type) where
  | update (f : T → T)
  | listen
  | readProj
  | cloneSelf (cloneT : T → T)

/-- One public-API call on a notifier: the resulting world, the notifier's
own state afterwards, and the number of `notify_all` fires the call
performed. `cloneSelf` produces a separate new notifier and leaves this one
untouched. -/
def ChangeNotifier.apiStep {T : Type} (w : World) (n : ChangeNotifier T) :
    ApiCall T → World × ChangeNotifier T × Nat
  | ApiCall.update f =>
      let r := ChangeNotifier.update w n (fun t => (f t, ()))
      (r.1, r.2.1, 1)
  | ApiCall.listen => ((ChangeNotifier.listen w n).1, n, 0)
  | ApiCall.readProj => (w, n, 0)
  | ApiCall.cloneSelf _ => (w, n, 0)

/-- Operations on one Event, used to quantify over what can happen between a
`listen` and a `notify_all`. -/
inductive EvOp where
  | listenOp
  | notifyOp
  | awaitOp (j : Nat)
deriving DecidableEq

/-- Run one Event operation. A pending await (`awaitPoll = none`) leaves the
Event unchanged. -/
def Event.runOp (e : Event) : EvOp → Event
  | EvOp.listenOp => (e.listen).1
  | EvOp.notifyOp => e.notifyAll
  | EvOp.awaitOp j => (e.awaitPoll j).getD e

/-- Run a sequence of Event operations. -/
def Event.run (e : Event) (ops : List EvOp) : Event :=
  ops.foldl Event.runOp e

/-! ## Helper lemmas about the Event model -/

lemma Event.notifyAll_getElem (e : Event) (i : Nat) :
    e.notifyAll.listeners[i]? = e.listeners[i]?.map
      (fun s => if s = ListenerState.waiting then ListenerState.notified else s) := by
  simp [Event.notifyAll]

lemma Event.notifyAll_consumed (e : Event) (i : Nat)
    (h : e.listeners[i]? = some ListenerState.consumed) :
    e.notifyAll.listeners[i]? = some ListenerState.consumed := by
  rw [Event.notifyAll_getElem, h]
  rfl

lemma Event.iterate_notifyAll_consumed (e : Event) (i : Nat)
    (h : e.listeners[i]? = some ListenerState.consumed) (k : Nat) :
    (Event.notifyAll^[k] e).listeners[i]? = some ListenerState.consumed := by
  induction k generalizing e with
  | zero => simpa using h
  | succ k ih =>
      rw [Function.iterate_succ_apply]
      exact ih _ (Event.notifyAll_consumed e i h)

lemma Event.awaitPoll_notified (e : Event) (i : Nat)
    (h : e.listeners[i]? = some ListenerState.notified) :
    e.awaitPoll i = some ⟨e.listeners.set i ListenerState.consumed⟩ := by
  unfold Event.awaitPoll
  rw [h]

lemma Event.awaitPoll_none (e : Event) (j : Nat)
    (h : e.listeners[j]? ≠ some ListenerState.notified) :
    e.awaitPoll j = none := by
  unfold Event.awaitPoll
  split <;> simp_all

lemma Event.listen_fresh_waiting (e : Event) :
    (e.listen).1.listeners[(e.listen).2]? = some ListenerState.waiting := by
  simp [Event.listen]

lemma Event.runOp_waiting (e : Event) (op : EvOp) (hop : op ≠ EvOp.notifyOp)
    (i : Nat) (h : e.listeners[i]? = some ListenerState.waiting) :
    (e.runOp op).listeners[i]? = some ListenerState.waiting := by
  cases op with
  | listenOp =>
      have hi : i < e.listeners.length := (List.getElem?_eq_some.mp h).1
      simp only [Event.runOp, Event.listen]
      rw [List.getElem?_append]
      simpa [hi] using h
  | notifyOp => exact absurd rfl hop
  | awaitOp j =>
      by_cases hj : e.listeners[j]? = some ListenerState.notified
      · have hne : j ≠ i := by
          intro he
          rw [he, h] at hj
          cases hj
        simp only [Event.runOp, Event.awaitPoll_notified e j hj, Option.getD_some]
        rw [List.getElem?_set_ne hne]
        exact h
      · simp [Event.runOp, Event.awaitPoll_none e j hj, h]

lemma Event.run_waiting : ∀ (ops : List EvOp), EvOp.notifyOp ∉ ops →
    ∀ (e : Event) (i : Nat), e.listeners[i]? = some ListenerState.waiting →
      (e.run ops).listeners[i]? = some ListenerState.waiting := by
  intro ops
  induction ops with
  | nil => intro _ e i h; exact h
  | cons op ops ih =>
      intro hops e i h
      have hop : op ≠ EvOp.notifyOp := fun he => hops (he ▸ List.mem_cons_self op ops)
      have hops2 : EvOp.notifyOp ∉ ops := fun hm => hops (List.mem_cons_of_mem op hm)
      exact ih hops2 (e.runOp op) i (Event.runOp_waiting e op hop i h)

/-! ## Claim theorems -/

/-- C1: `n.update(f)` performs exactly, in this order: run `f` on the payload
capturing its return value, fire `notify_all` on the embedded Event, return
`f`'s return value; the `notify_all` step carries the post-`f` payload, so
the payload state at notification time is the post-`f` state, and the final
payload and return value are `f`'s. -/
theorem c1_update_order {T R : Type} (w : World) (n : ChangeNotifier T)
    (f : T → T × R) :
    ChangeNotifier.updateTrace n f =
      [UpdateStep.applyClosure n.inner (f n.inner).1 (f n.inner).2,
       UpdateStep.notifyAll (f n.inner).1,
       UpdateStep.returned (f n.inner).2] ∧
    (ChangeNotifier.update w n f).2.2 = (f n.inner).2 ∧
    (ChangeNotifier.update w n f).2.1.inner = (f n.inner).1 ∧
    (ChangeNotifier.update w n f).1 = w.notifyAt n.event :=
  ⟨rfl, rfl, rfl, rfl⟩

/-- C2: every `update` call fires exactly one `notify_all`, for every closure
`f` — including one that leaves the payload unchanged; no value comparison is
performed (the statement quantifies over all `f`), and the world after the
call is exactly one `notify_all` applied to the notifier's event. -/
theorem c2_exactly_one_notify {T R : Type} (w : World) (n : ChangeNotifier T)
    (f : T → T × R) :
    (ChangeNotifier.updateTrace n f).countP UpdateStep.isNotify = 1 ∧
    (ChangeNotifier.update w n f).1 = w.notifyAt n.event := by
  refine ⟨?_, rfl⟩
  simp [ChangeNotifier.updateTrace, List.countP_cons, UpdateStep.isNotify]

/-- C3: cloning a `ChangeNotifier` clones the payload with `T`'s clone
operation but keeps the very same shared Event (the same heap index, hence
the same Event object in every world). -/
theorem c3_clone_shares_event {T : Type} (w : World) (cloneT : T → T)
    (n : ChangeNotifier T) :
    (ChangeNotifier.clone cloneT n).inner = cloneT n.inner ∧
    (ChangeNotifier.clone cloneT n).event = n.event ∧
    w.getEvent (ChangeNotifier.clone cloneT n).event = w.getEvent n.event :=
  ⟨rfl, rfl, rfl⟩

/-- C5: `update` is infallible at its own layer — whenever the closure
returns normally the call returns normally; if the closure aborts (panics)
leaving the payload in state `t`, the call aborts with `notify_all` not
fired (the world unchanged) and the payload left at `t` (no rollback). -/
theorem c5_abort_no_notify {T R : Type} (w : World) (n : ChangeNotifier T)
    (f : T → Except T (T × R)) :
    (∀ t r, f n.inner = Except.ok (t, r) →
      ChangeNotifier.updateCatch w n f =
        Except.ok (w.notifyAt n.event, { n with inner := t }, r)) ∧
    (∀ t, f n.inner = Except.error t →
      ChangeNotifier.updateCatch w n f = Except.error (w, { n with inner := t })) := by
  constructor
  · intro t r h
    simp [ChangeNotifier.updateCatch, h]
  · intro t h
    simp [ChangeNotifier.updateCatch, h]

/-- C6: a finite sequence of `update` calls all return (the function is
total) and leave the payload equal to the sequential left-to-right
composition of the closures applied to the initial payload. -/
theorem c6_sequential_composition {T : Type} (w : World) (n : ChangeNotifier T)
    (fs : List (T → T)) :
    (ChangeNotifier.runUpdates w n fs).2.inner = fs.foldl (fun t f => f t) n.inner := by
  induction fs generalizing w n with
  | nil => rfl
  | cons f fs ih =>
      simpa [ChangeNotifier.runUpdates, ChangeNotifier.update] using
        ih (w.notifyAt n.event) { n with inner := f n.inner }

/-- C9: the read projection (`Deref`) returns the payload and has no side
effects: it leaves the world (hence every Event and its waiter set) and the
notifier exactly unchanged, and equals the immutable borrow `&self.inner`. -/
theorem c9_read_projection_pure {T : Type} (w : World) (n : ChangeNotifier T) :
    ChangeNotifier.readProj w n = (n.inner, w, n) ∧
    ChangeNotifier.deref n = n.inner :=
  ⟨rfl, rfl⟩

/-- C10: the only public operation that can change the payload of a notifier
is `update`; and an `update` call fires exactly one `notify_all` on the
embedded Event. So every payload change observable through the read
projection is accompanied by exactly one notification. -/
theorem c10_mutation_only_via_update {T : Type} (w : World)
    (n : ChangeNotifier T) (c : ApiCall T)
    (h : (ChangeNotifier.apiStep w n c).2.1.inner ≠ n.inner) :
    (∃ f, c = ApiCall.update f) ∧
    (ChangeNotifier.apiStep w n c).2.2 = 1 ∧
    (ChangeNotifier.apiStep w n c).1 = w.notifyAt n.event := by
  cases c with
  | update f => exact ⟨⟨f, rfl⟩, rfl, rfl⟩
  | listen => exact absurd rfl h
  | readProj => exact absurd rfl h
  | cloneSelf cl => exact absurd rfl h

/-- Witness for C10 at a concrete input: incrementing a `Nat` payload changes
it, and the call is an update firing one notification. -/
theorem c10_witness :
    (ChangeNotifier.apiStep ⟨[Event.new]⟩ ⟨0, 0⟩
        (ApiCall.update fun t => t + 1)).2.1.inner ≠ (0 : Nat) ∧
    (∃ f, (ApiCall.update fun t => t + 1) = ApiCall.update f) :=
  ⟨by decide,
   (c10_mutation_only_via_update ⟨[Event.new]⟩ ⟨0, 0⟩
      (ApiCall.update fun t => t + 1) (by decide)).1⟩

/-- C4: a listener that exists before a `notify_all` and is not yet consumed
(waiting or already notified) is notified by that call, and awaiting it
completes exactly once: the await completes (consuming the listener), and
after that no sequence of further `notify_all` calls lets the await complete
again. -/
theorem c4_notified_exactly_once (e : Event) (i : Nat)
    (h : e.listeners[i]? = some ListenerState.waiting ∨
         e.listeners[i]? = some ListenerState.notified) :
    e.notifyAll.listeners[i]? = some ListenerState.notified ∧
    ∃ e2, e.notifyAll.awaitPoll i = some e2 ∧
      e2.listeners[i]? = some ListenerState.consumed ∧
      ∀ k, (Event.notifyAll^[k] e2).awaitPoll i = none := by
  have h1 : e.notifyAll.listeners[i]? = some ListenerState.notified := by
    rcases h with h | h <;> rw [Event.notifyAll_getElem, h] <;> rfl
  have hi : i < e.notifyAll.listeners.length := (List.getElem?_eq_some.mp h1).1
  have hc : (⟨e.notifyAll.listeners.set i ListenerState.consumed⟩ :
      Event).listeners[i]? = some ListenerState.consumed := by
    show (e.notifyAll.listeners.set i ListenerState.consumed)[i]? = _
    rw [List.getElem?_set]
    simp [hi]
  refine ⟨h1, ⟨e.notifyAll.listeners.set i ListenerState.consumed⟩,
    Event.awaitPoll_notified _ i h1, hc, ?_⟩
  intro k
  apply Event.awaitPoll_none
  rw [Event.iterate_notifyAll_consumed _ i hc k]
  simp

/-- Witness for C4 at a concrete input: the single waiting listener of a
one-listener Event is notified by `notify_all`. -/
theorem c4_witness :
    (Event.notifyAll ⟨[ListenerState.waiting]⟩).listeners[0]? =
      some ListenerState.notified :=
  (c4_notified_exactly_once ⟨[ListenerState.waiting]⟩ 0 (Or.inl (by decide))).1

/-- C7: `ChangeNotifier::listen` delegates to the embedded Event's `listen`,
and the returned listener fires only on the next notification after the
listen: across any sequence of Event operations containing no `notify_all`,
awaiting the listener stays pending, while after a `notify_all` (i.e. the
next `update`) the await completes. -/
theorem c7_no_early_delivery {T : Type} (w : World) (n : ChangeNotifier T)
    (ops : List EvOp) (hops : EvOp.notifyOp ∉ ops) :
    ChangeNotifier.listen w n =
      (⟨w.events.set n.event ((w.getEvent n.event).listen).1⟩,
        ((w.getEvent n.event).listen).2) ∧
    (((w.getEvent n.event).listen).1.run ops).awaitPoll
        ((w.getEvent n.event).listen).2 = none ∧
    ((((w.getEvent n.event).listen).1.run ops).notifyAll).awaitPoll
        ((w.getEvent n.event).listen).2 ≠ none := by
  have hw := Event.listen_fresh_waiting (w.getEvent n.event)
  have hrun := Event.run_waiting ops hops _ _ hw
  refine ⟨rfl, ?_, ?_⟩
  · apply Event.awaitPoll_none
    rw [hrun]
    simp
  · have hn : ((((w.getEvent n.event).listen).1.run ops).notifyAll).listeners[
        ((w.getEvent n.event).listen).2]? = some ListenerState.notified := by
      rw [Event.notifyAll_getElem, hrun]
      rfl
    rw [Event.awaitPoll_notified _ _ hn]
    simp

/-- Witness for C7 at a concrete input: a listener created on a fresh
notifier's event stays pending across a later `listen` and a stray poll. -/
theorem c7_witness :
    (((World.getEvent ⟨[Event.new]⟩ 0).listen).1.run
        [EvOp.listenOp, EvOp.awaitOp 5]).awaitPoll
      ((World.getEvent ⟨[Event.new]⟩ 0).listen).2 = none :=
  (c7_no_early_delivery ⟨[Event.new]⟩ (⟨0, 0⟩ : ChangeNotifier Nat)
    [EvOp.listenOp, EvOp.awaitOp 5] (by decide)).2.1

/-- C8: `ChangeNotifier::new(v)` yields a notifier whose payload is `v` and
whose event is a freshly allocated empty Event (no waiters), at a heap index
different from that of any previously existing notifier. -/
theorem c8_new_fresh_event {T S : Type} (w : World) (v : T)
    (m : ChangeNotifier S) (h : m.event < w.events.length) :
    (ChangeNotifier.new w v).2.inner = v ∧
    (ChangeNotifier.new w v).1.events[(ChangeNotifier.new w v).2.event]? =
      some Event.new ∧
    Event.new.listeners = [] ∧
    (ChangeNotifier.new w v).2.event ≠ m.event := by
  refine ⟨rfl, ?_, rfl, ?_⟩
  · show (w.events ++ [Event.new])[w.events.length]? = some Event.new
    simp
  · show w.events.length ≠ m.event
    omega

/-- Witness for C8 at a concrete input: a new notifier built over a one-event
heap does not share its event with the notifier at index 0. -/
theorem c8_witness :
    (ChangeNotifier.new ⟨[Event.new]⟩ (3 : Nat)).2.event ≠
      (⟨0, 0⟩ : ChangeNotifier Nat).event :=
  (c8_new_fresh_event ⟨[Event.new]⟩ (3 : Nat) (⟨0, 0⟩ : ChangeNotifier Nat)
    (by decide)).2.2.2
